import Mathlib

/-!
Verification development for `scripts/bigquery.py` of the
mozilla-pipeline-schemas repository.

The script is embedded shallowly: every function of the script becomes a
Lean definition over an explicit state (`St`, the mutable world: current
git reference, dirty flag, stash list, filesystem) together with a fixed
environment (`Env`, the external collaborators: the set of branches, the
revision oracle, the external transpiler tool, the JSON codec of the
standard library, and the temporary-directory allocator).  Fallible
Python code is modelled with `Except PyErr`; a computation has type
`M α = St → Except PyErr α × St`, so the state reached at the moment an
exception is raised is preserved (Python exceptions do not roll back
side effects).

Dynamic typing is load-bearing in two places of the source (`res.stdout`
on a `str`, and `input_path.glob` on a `str`), so the values flowing
through those seams are embedded as `PyVal` with an explicit
attribute-lookup semantics: looking up an attribute a runtime type does
not define raises `AttributeError`, exactly as in Python.
-/

/-! ## Python string primitives (models of `str.split`, `str.strip`, slicing, `int`) -/

/-- Characters Python's `str.split()` (no argument) treats as whitespace,
restricted to the ASCII ones; command strings in the script are ASCII. -/
def isWs (c : Char) : Bool :=
  (c == ' ') || (c == '\t') || (c == '\n') || (c == '\r') || (c == '\x0b') || (c == '\x0c')

/-- Emit the pending (reversed) token, if nonempty, in front of `r`. -/
def flushTok (acc : List Char) (r : List (List Char)) : List (List Char) :=
  match acc with
  | [] => r
  | _ :: _ => acc.reverse :: r

/-- Accumulator-style splitter behind `pySplitWs`; `acc` holds the current
token reversed.  Runs of whitespace separate tokens and produce no empty
tokens, as with Python's `str.split()` with no argument. -/
def splitWsAux : List Char → List Char → List (List Char)
  | [], acc => flushTok acc []
  | c :: cs, acc =>
    if isWs c then flushTok acc (splitWsAux cs [])
    else splitWsAux cs (c :: acc)

/-- Model of Python `str.split()` with no argument: split on runs of
whitespace, dropping empty tokens. -/
def pySplitWs (s : String) : List String :=
  (splitWsAux s.data []).map (fun l => String.mk l)

/-- Model of Python `str.split("\n")`: split on each newline; the empty
string yields `[""]`, so a stripped empty `git stash list` output still
counts one line — this detail is load-bearing for `git_stash_size`. -/
def pySplitNl : List Char → List (List Char)
  | [] => [[]]
  | c :: cs =>
    if c = '\n' then [] :: pySplitNl cs
    else
      match pySplitNl cs with
      | [] => [[c]]
      | t :: r => (c :: t) :: r

/-- Line count of `s.split("\n")` on a string, as `len` sees it. -/
def pySplitNlCount (s : String) : Nat := (pySplitNl s.data).length

/-- Drop leading whitespace characters from a character list. -/
def dropWs : List Char → List Char
  | [] => []
  | c :: cs => if isWs c then dropWs cs else c :: cs

/-- Model of Python `str.strip()`: remove leading and trailing whitespace. -/
def pyStrip (s : String) : String :=
  String.mk ((dropWs ((dropWs s.data).reverse)).reverse)

/-- Whether a string contains no whitespace characters. -/
def noWs (s : String) : Bool := s.data.all (fun c => !(isWs c))

/-- Model of the Python slice `s[:-n]`: drop the last `n` characters. -/
def pyDropRight (s : String) (n : Nat) : String :=
  String.mk (s.data.take (s.data.length - n))

/-- Model of the Python slice `s[:n]`: keep the first `n` characters. -/
def pyTake (s : String) (n : Nat) : String :=
  String.mk (s.data.take n)

/-- Model of Python `str.split(".")`: split on each dot, keeping empty
pieces. -/
def pySplitDotAux : List Char → List (List Char)
  | [] => [[]]
  | c :: cs =>
    if c = '.' then [] :: pySplitDotAux cs
    else
      match pySplitDotAux cs with
      | [] => [[c]]
      | t :: r => (c :: t) :: r

/-- Model of Python `str.split(".")` on a string. -/
def pySplitDot (s : String) : List String :=
  (pySplitDotAux s.data).map (fun l => String.mk l)

/-- The numeric value of a decimal digit character, if it is one. -/
def digitVal (c : Char) : Option Nat :=
  if 48 ≤ c.toNat && c.toNat ≤ 57 then some (c.toNat - 48) else none

/-- Parse a nonempty run of decimal digits left to right. -/
def parseDigitsAux : List Char → Nat → Option Nat
  | [], acc => some acc
  | c :: cs, acc =>
    match digitVal c with
    | some d => parseDigitsAux cs (acc * 10 + d)
    | none => none

/-- Model of Python `int(s)`: strip whitespace, then parse an optionally
signed decimal integer; `none` models the `ValueError` raised on any
other input.  (Digit-group underscores, accepted by Python, are not
modelled; no filename in the repository uses them.) -/
def pyInt (s : String) : Option Int :=
  match (pyStrip s).data with
  | [] => none
  | '-' :: rest =>
    if rest.isEmpty then none
    else (parseDigitsAux rest 0).map (fun n => -(n : Int))
  | '+' :: rest =>
    if rest.isEmpty then none
    else (parseDigitsAux rest 0).map (fun n => (n : Int))
  | l => (parseDigitsAux l 0).map (fun n => (n : Int))

/-- The decimal digit character for a value below ten. -/
def digitChar (n : Nat) : Char := Char.ofNat (48 + n)

/-- Decimal digits of `n`, least significant first; `fuel` bounds the
recursion structurally (any `fuel > n` is exact). -/
def natDigitsRev : Nat → Nat → List Char
  | 0, _ => []
  | f + 1, n =>
    if n < 10 then [digitChar n]
    else digitChar (n % 10) :: natDigitsRev f (n / 10)

/-- Decimal rendering of a natural number (model of Python `str(n)`). -/
def natToStr (n : Nat) : String := String.mk (natDigitsRev (n + 1) n).reverse

/-- Decimal rendering of an integer (model of Python `str(i)` inside the
f-string). -/
def intToStr : Int → String
  | .ofNat n => natToStr n
  | .negSucc n => "-" ++ natToStr (n + 1)

/-! ## Paths, errors, JSON values, dynamically typed values -/

/-- Model of `pathlib.Path`: the tuple of components Python exposes as
`path.parts`. -/
structure FPath where
  parts : List String
deriving DecidableEq, Repr

/-- Model of the `/` operator on `FPath` for a single component. -/
def FPath.child (p : FPath) (s : String) : FPath := ⟨p.parts ++ [s]⟩

/-- Join path components with slashes. -/
def joinSlash : List String → String
  | [] => ""
  | [s] => s
  | s :: t => s ++ "/" ++ joinSlash t

/-- Model of `str(path)` for the relative POSIX paths the script uses. -/
def pathStr (p : FPath) : String := joinSlash p.parts

/-- The Python exceptions the script can raise.  The spec's abstract error
taxonomy maps onto these: `DirtyTreeError` and `EmptySchemaSetError` are
`assertionError`s with the corresponding message, `CommandExecutionError`
is `calledProcessError`, `InvalidOutputPathError` is the `assertionError`
on the output directory. -/
inductive PyErr where
  | attributeError (tyName attrName : String)
  | assertionError (msg : String)
  | valueError (msg : String)
  | indexError (msg : String)
  | typeError (msg : String)
  | calledProcessError (args : List String)
  | fileExistsError (p : FPath)
  | fileNotFoundError (p : FPath)
  | runtimeError (msg : String)
deriving DecidableEq, Repr

/-- Parsed JSON documents, the result type of `json.loads`. -/
inductive Jval where
  | jnull : Jval
  | jbool : Bool → Jval
  | jnum : Int → Jval
  | jstr : String → Jval
  | jarr : List Jval → Jval
  | jobj : List (String × Jval) → Jval

/-- Runtime values at the dynamically typed seams of the script. -/
inductive PyVal where
  | vstr (s : String)
  | vbytes (b : String)
  | vproc (stdout : String)
  | vpath (p : FPath)
  | vnone
deriving DecidableEq, Repr

/-- The Python type name of a value, as it appears in `AttributeError`
messages. -/
def pyTypeName : PyVal → String
  | .vstr _ => "str"
  | .vbytes _ => "bytes"
  | .vproc _ => "CompletedProcess"
  | .vpath _ => "PosixPath"
  | .vnone => "NoneType"

/-- Attribute lookup `x.stdout`: among the runtime types flowing through
the script only `CompletedProcess` defines `stdout`; every other lookup
raises `AttributeError`, exactly as in Python. -/
def attrStdout : PyVal → Except PyErr PyVal
  | .vproc out => .ok (.vbytes out)
  | v => .error (.attributeError (pyTypeName v) "stdout")

/-- Method call `x.decode()`: only `bytes` defines `decode`. -/
def methDecode : PyVal → Except PyErr PyVal
  | .vbytes b => .ok (.vstr b)
  | v => .error (.attributeError (pyTypeName v) "decode")

/-- Method call `x.strip()`: only `str` defines `strip`. -/
def methStrip : PyVal → Except PyErr PyVal
  | .vstr s => .ok (.vstr (pyStrip s))
  | v => .error (.attributeError (pyTypeName v) "strip")

/-! ## Environment and state -/

/-- The fixed external collaborators of one run (spec section 6): the git
branch namespace and revision oracle, the external transpiler tool's
behaviour (`none` models a nonzero exit), the standard library's JSON
codec, and the directory `tempfile.mkdtemp` allocates.  None of these
change during a run. -/
structure Env where
  branches : List String
  revOf : String → Option String
  toolOut : String → Option String
  jsonParse : String → Option Jval
  jsonDumpS : Jval → String
  tmpdir : FPath

/-- The mutable world: the abbreviated name of the current git reference
(`"HEAD"` when detached), whether the working tree has uncommitted
tracked modifications, the number of stash entries, and the filesystem
(directories, and files with their contents).  Working-tree file content
across revisions is abstracted: the claims under verification never
depend on it. -/
structure St where
  head : String
  dirty : Bool
  stashes : Nat
  dirs : List FPath
  files : List (FPath × String)
deriving DecidableEq, Repr

/-- A Python computation: runs against the world, returns a value or a
raised exception, and the world as left at that moment. -/
def M (α : Type) : Type := St → Except PyErr α × St

/-- Return a value without touching the world. -/
def M.pure {α : Type} (a : α) : M α := fun st => (.ok a, st)

/-- Raise an exception, keeping the world as it is. -/
def M.throw {α : Type} (e : PyErr) : M α := fun st => (.error e, st)

/-- Sequencing of Python statements: an exception aborts the rest of the
suite, carrying the state reached so far. -/
def M.bind {α β : Type} (m : M α) (f : α → M β) : M β := fun st =>
  match m st with
  | (.error e, st1) => (.error e, st1)
  | (.ok a, st1) => f a st1

/-! ## Filesystem model -/

/-- Model of `Path.is_dir()`. -/
def isDir (st : St) (p : FPath) : Bool := decide (p ∈ st.dirs)

/-- Contents of a file, if present. -/
def fsRead (st : St) (p : FPath) : Option String :=
  (st.files.find? (fun f => f.1 = p)).map (fun f => f.2)

/-- Replace the contents of `p` if present, else append the new file;
model of opening a file in mode `"w"` and writing `c`. -/
def upsertFile : List (FPath × String) → FPath → String → List (FPath × String)
  | [], p, c => [(p, c)]
  | f :: t, p, c => if f.1 = p then (p, c) :: t else f :: upsertFile t p c

/-- Write (create or truncate-and-write) a file. -/
def fsWrite (st : St) (p : FPath) (c : String) : St :=
  { st with files := upsertFile st.files p c }

/-- Model of `Path.mkdir()` with default arguments: fails with
`FileExistsError` if the directory exists and `FileNotFoundError` if the
parent is missing. -/
def mkdirSt (p : FPath) : M Unit := fun st =>
  if p ∈ st.dirs then (.error (.fileExistsError p), st)
  else if (⟨p.parts.dropLast⟩ : FPath) ∈ st.dirs then
    (.ok (), { st with dirs := p :: st.dirs })
  else (.error (.fileNotFoundError p), st)

/-- Model of `dir.glob("*.bq")`: the files directly under `dir` whose
name ends in `.bq`, in filesystem order. -/
def fsGlob (st : St) (dir : FPath) : List FPath :=
  (st.files.filter (fun f =>
    (f.1.parts.dropLast == dir.parts) &&
      (List.isSuffixOf ".bq".data (f.1.parts.getLastD "").data))).map (fun f => f.1)

/-- Model of `base.glob("**/*.schema.json")`: the files strictly under
`base` (any depth) whose name ends in `.schema.json`. -/
def fsGlobRec (st : St) (base : FPath) : List FPath :=
  (st.files.filter (fun f =>
    (f.1.parts.take base.parts.length == base.parts) &&
      (base.parts.length < f.1.parts.length) &&
      (List.isSuffixOf ".schema.json".data (f.1.parts.getLastD "").data))).map (fun f => f.1)

/-- Whether `q` lies at or under directory `p`. -/
def underPath (p q : FPath) : Bool := q.parts.take p.parts.length == p.parts

/-- Model of `shutil.rmtree(p)`: remove the directory and everything
under it; `FileNotFoundError` if it does not exist. -/
def rmtreeSt (p : FPath) : M Unit := fun st =>
  if p ∈ st.dirs then
    (.ok (), { st with
      dirs := st.dirs.filter (fun d => !(underPath p d)),
      files := st.files.filter (fun f => !(underPath p f.1)) })
  else (.error (.fileNotFoundError p), st)

/-- Model of `shutil.copytree(src, dst)`: `FileExistsError` if `dst`
exists; otherwise replicate the subtree of `src` under `dst`. -/
def copytreeSt (src dst : FPath) : M Unit := fun st =>
  if dst ∈ st.dirs then (.error (.fileExistsError dst), st)
  else
    (.ok (), { st with
      dirs := st.dirs ++
        ((st.dirs.filter (fun d => underPath src d)).map
          (fun d => (⟨dst.parts ++ d.parts.drop src.parts.length⟩ : FPath))),
      files := st.files ++
        ((st.files.filter (fun f => underPath src f.1)).map
          (fun f => ((⟨dst.parts ++ f.1.parts.drop src.parts.length⟩ : FPath), f.2))) })

/-- Model of `Path(tempfile.mkdtemp())`: the environment designates the
fresh directory allocated for this run; it is created here. -/
def mkdtemp (E : Env) : M FPath := fun st =>
  (.ok E.tmpdir, { st with dirs := E.tmpdir :: st.dirs })

/-! ## Model of the external git commands (spec section 6) -/

/-- Model of `git rev-parse --abbrev-ref <r>`: `HEAD` resolves to the
current branch name (or to `"HEAD"` itself when detached); a branch name
resolves to itself; any other ref known to the revision oracle is echoed
back; an unknown ref makes the command exit nonzero. -/
def gitAbbrev (E : Env) (st : St) (r : String) : Option String :=
  if r = "HEAD" then some st.head
  else if r ∈ E.branches then some r
  else if (E.revOf r).isSome then some r
  else none

/-- Model of the target state of `git checkout <r>`: checking out `HEAD`
is a no-op, a branch becomes the current reference, any other known
revision detaches `HEAD`; an unknown ref fails. -/
def checkoutTarget (E : Env) (st : St) (r : String) : Option String :=
  if r = "HEAD" then some st.head
  else if r ∈ E.branches then some r
  else if (E.revOf r).isSome then some "HEAD"
  else none

/-- Output of `git stash list` for `n` stash entries: one line per entry.
The script only consumes the line count, so the line text is a fixed
placeholder for git's `stash@...` description lines (each nonempty and
free of surrounding whitespace, as in git's actual output). -/
def stashListOut : Nat → String
  | 0 => ""
  | 1 => "stash@0"
  | n + 2 => "stash@" ++ natToStr (n + 1) ++ "\n" ++ stashListOut (n + 1)

/-- Model of `subprocess.run(args, stdout=subprocess.PIPE, check=True)`
for the commands the script issues: git subcommands are interpreted
against the repository state, the transpiler tool against the
environment's tool oracle.  A nonzero exit raises `CalledProcessError`
(`check=True`); otherwise the `CompletedProcess` value carries the
captured stdout.  Dispatch is written as arity-directed token tests so
that it reduces even when an argument token is symbolic. -/
def subprocessRun (E : Env) (args : List String) : M PyVal := fun st =>
  match args with
  | [a, b] =>
    if a = "git" then
      if b = "diff" then
        (.ok (.vproc (if st.dirty then "diff --git a/x b/x" else "")), st)
      else if b = "stash" then
        if st.dirty then
          (.ok (.vproc "Saved working directory and index state"),
            { st with dirty := false, stashes := st.stashes + 1 })
        else (.ok (.vproc "No local changes to save"), st)
      else (.error (.calledProcessError args), st)
    else if a = "jsonschema-transpiler" then
      if b = "--version" then (.ok (.vproc "jsonschema-transpiler 1.9"), st)
      else (.error (.calledProcessError args), st)
    else (.error (.calledProcessError args), st)
  | [a, b, c] =>
    if a = "git" then
      if b = "stash" then
        if c = "list" then (.ok (.vproc (stashListOut st.stashes)), st)
        else if c = "apply" then
          if 0 < st.stashes then (.ok (.vproc "On branch"), { st with dirty := true })
          else (.error (.calledProcessError args), st)
        else (.error (.calledProcessError args), st)
      else if b = "rev-parse" then
        match E.revOf (if c = "HEAD" then st.head else c) with
        | some h => (.ok (.vproc h), st)
        | none => (.error (.calledProcessError args), st)
      else if b = "checkout" then
        match checkoutTarget E st c with
        | some tgt => (.ok (.vproc ""), { st with head := tgt })
        | none => (.error (.calledProcessError args), st)
      else (.error (.calledProcessError args), st)
    else (.error (.calledProcessError args), st)
  | [a, b, c, d] =>
    if a = "git" then
      if b = "rev-parse" then
        if c = "--abbrev-ref" then
          match gitAbbrev E st d with
          | some x => (.ok (.vproc x), st)
          | none => (.error (.calledProcessError args), st)
        else (.error (.calledProcessError args), st)
      else (.error (.calledProcessError args), st)
    else (.error (.calledProcessError args), st)
  | [a, p, o1, o2, o3, o4, o5] =>
    if a = "jsonschema-transpiler" then
      if o1 = "--normalize-case" ∧ o2 = "--resolve" ∧ o3 = "cast" ∧
          o4 = "--type" ∧ o5 = "bigquery" then
        match E.toolOut p with
        | some out => (.ok (.vproc out), st)
        | none => (.error (.calledProcessError args), st)
      else (.error (.calledProcessError args), st)
    else (.error (.calledProcessError args), st)
  | _ => (.error (.calledProcessError args), st)

/-- The `Union[str, List[str]]` argument of `run`. -/
inductive RunArg where
  | ofString (s : String)
  | ofList (l : List String)

/-- Embedding of `run(command)`: tokenize (a string is split on
whitespace), execute with `check=True`, then return
`.stdout.decode().strip()` of the completed process.  The source's
`else: raise RuntimeError` branch is unreachable under the typed
`RunArg`. -/
def runArgs : RunArg → List String
  | .ofList l => l
  | .ofString s => pySplitWs s

/-- Embedding of `run(command)` (continued): execute the tokenized
command with `check=True`, then return `.stdout.decode().strip()` of the
completed process. -/
def runPost (v : PyVal) (st1 : St) : Except PyErr String × St :=
  match attrStdout v >>= methDecode >>= methStrip with
  | .error e => (.error e, st1)
  | .ok (.vstr s) => (.ok s, st1)
  | .ok _ => (.error (.typeError "expected str"), st1)

/-- Embedding of `run(command)` (continued): execute the tokenized
command with `check=True`, then post-process the completed process. -/
def run (E : Env) (command : RunArg) : M String := fun st =>
  match subprocessRun E (runArgs command) st with
  | (.error e, st1) => (.error e, st1)
  | (.ok v, st1) => runPost v st1

/-! ## Embedding of the script's functions -/

/-- Embedding of `ROOT = Path(__file__).parent.parent`: the repository
root, an abstract fixed location. -/
def ROOT : FPath := ⟨["ROOT"]⟩

/-- Embedding of `transpile(schema_path)`.  `run` already returns the
decoded, stripped stdout string, so the subsequent `res.stdout` attribute
access is performed on a `str` value; the success continuation
(`json.loads` on the decoded bytes) is embedded behind it exactly as
written. -/
def transpile (E : Env) (schema_path : FPath) : M Jval := fun st =>
  match run E (.ofList ["jsonschema-transpiler", pathStr schema_path,
      "--normalize-case", "--resolve", "cast", "--type", "bigquery"]) st with
  | (.error e, st') => (.error e, st')
  | (.ok res, st') =>
    match attrStdout (.vstr res) with
    | .error e => (.error e, st')
    | .ok b =>
      match methDecode b with
      | .error e => (.error e, st')
      | .ok (.vstr s) =>
        match E.jsonParse s with
        | some j => (.ok j, st')
        | none => (.error (.valueError "Expecting value"), st')
      | .ok _ => (.error (.typeError "the JSON object must be str"), st')

/-- The output filename `transpile_schemas` computes in its f-string:
`f"{namespace}.{doctype}.{version}.bq"`. -/
def bqName (ns dt : String) (v : Int) : String :=
  ns ++ "." ++ dt ++ "." ++ intToStr v ++ ".bq"

/-- Embedding of `namespace, doctype, filename = path.parts[-3:]`:
`none` models the `ValueError` unpacking raises when fewer than three
components are available. -/
def last3 (p : FPath) : Option (String × String × String) :=
  match p.parts.reverse with
  | fn :: dt :: ns :: _ => some (ns, dt, fn)
  | _ => none

/-- Embedding of the index `l[-3]` on a list of strings: `none` models
the `IndexError` when the list has fewer than three elements. -/
def thirdFromEnd (l : List String) : Option String :=
  match l.reverse with
  | _ :: _ :: x :: _ => some x
  | _ => none

/-- The loop body of `transpile_schemas`, iterated over the schema
paths.  Order of operations mirrors the source: unpack the path triple,
parse the version integer from the filename, only then test the
reserved `schemas` namespace and skip, else open the output file for
writing (creating it empty) and serialize the transpiled schema into
it. -/
def transpileLoop (E : Env) (output_path : FPath) : List FPath → M Unit
  | [] => fun st => (.ok (), st)
  | path :: rest => fun st =>
    match last3 path with
    | none => (.error (.valueError "not enough values to unpack"), st)
    | some (ns, dt, fn) =>
      match thirdFromEnd (pySplitDot fn) with
      | none => (.error (.indexError "list index out of range"), st)
      | some seg =>
        match pyInt seg with
        | none => (.error (.valueError ("invalid literal for int: " ++ seg)), st)
        | some version =>
          if ns = "schemas" then transpileLoop E output_path rest st
          else
            let out := output_path.child (bqName ns dt version)
            let st1 := fsWrite st out ""
            match transpile E path st1 with
            | (.error e, st2) => (.error e, st2)
            | (.ok j, st2) =>
              transpileLoop E output_path rest (fsWrite st2 out (E.jsonDumpS j ++ "\n"))

/-- Embedding of `transpile_schemas(output_path, schema_paths)`. -/
def transpile_schemas (E : Env) (output_path : FPath) (schema_paths : List FPath) :
    M Unit := fun st =>
  if isDir st output_path then transpileLoop E output_path schema_paths st
  else (.error (.assertionError "output_path.is_dir()"), st)

/-- A schema set: the `schemas` dict built by `load_schemas`, keyed by
qualified name in insertion order. -/
def Schemas : Type := List (String × Jval)

/-- Python dict assignment `schemas[k] = v`: replace in place or append. -/
def upsertKey : List (String × Jval) → String → Jval → List (String × Jval)
  | [], k, v => [(k, v)]
  | e :: t, k, v => if e.1 = k then (k, v) :: t else e :: upsertKey t k v

/-- Method call `x.glob("*.bq")`: only `Path` values define `glob`; on a
path it lists the matching files of the current filesystem. -/
def methGlobBq (st : St) : PyVal → Except PyErr (List FPath)
  | .vpath p => .ok (fsGlob st p)
  | v => .error (.attributeError (pyTypeName v) "glob")

/-- The loop of `load_schemas`: derive each qualified name as the
filename minus its last three characters (`path.parts[-1][:-3]`), parse
the file's JSON content, and insert it into the dict. -/
def loadLoop (E : Env) : List FPath → List (String × Jval) → M Schemas
  | [], acc => fun st => (.ok acc, st)
  | path :: rest, acc => fun st =>
    match fsRead st path with
    | none => (.error (.fileNotFoundError path), st)
    | some content =>
      match E.jsonParse content with
      | none => (.error (.valueError "Expecting value"), st)
      | some v =>
        loadLoop E rest (upsertKey acc (pyDropRight (path.parts.getLastD "") 3) v) st

/-- Embedding of `load_schemas(input_path)`.  The argument is a dynamic
value: the caller actually passes the string returned by
`_checkout_transpile_schemas`, so the `glob` attribute lookup can
raise.  The `assert len(paths) > 0` guard is the spec's
`EmptySchemaSetError`. -/
def load_schemas (E : Env) (input_path : PyVal) : M Schemas := fun st =>
  match methGlobBq st input_path with
  | .error e => (.error e, st)
  | .ok paths =>
    if 0 < paths.length then loadLoop E paths [] st
    else (.error (.assertionError "len(paths) > 0"), st)

/-- Embedding of `git_stash_size()`:
`len(run("git stash list").split("\n"))`. -/
def git_stash_size (E : Env) : M Nat := fun st =>
  match run E (.ofString "git stash list") st with
  | (.error e, st') => (.error e, st')
  | (.ok s, st') => (.ok (pySplitNlCount s), st')

/-- Embedding of `resolve_ref(ref)`: a single read-only
`git rev-parse --abbrev-ref` query (the log line on a differing
resolution has no effect on the state). -/
def resolve_ref (E : Env) (ref : String) : M String := fun st =>
  match run E (.ofString ("git rev-parse --abbrev-ref " ++ ref)) st with
  | (.error e, st') => (.error e, st')
  | (.ok resolved, st') => (.ok resolved, st')

/-- Embedding of `_checkout_transpile_schemas(ref, output)`.  The
`try/except/finally` is embedded with Python's exact semantics: the
`except Exception as e: raise e` clause is the identity on the raised
exception, and the `return run(f"git checkout {original_ref}")` in the
`finally` block *replaces* any in-flight exception or pending return
value with the checkout's output (a `str`), so the trailing
`return rev_path` is unreachable dead code. -/
def checkout_transpile_schemasX (E : Env) (ref : String) (output : FPath) :
    M PyVal := fun st =>
  if !(isDir st output) then
    (.error (.assertionError "output must be a directory"), st)
  else
    (M.bind (run E (.ofString "git diff")) (fun d =>
      if d.length ≠ 0 then
        M.throw (.assertionError "current git state must be clean, please stash changes")
      else
        M.bind (run E (.ofString "git rev-parse --abbrev-ref HEAD")) (fun original_ref =>
        M.bind (run E (.ofString ("git rev-parse " ++ ref))) (fun rev =>
        M.bind (mkdirSt (output.child (pyTake rev 7))) (fun _ => fun st4 =>
          let tryResult :=
            (M.bind (run E (.ofString ("git checkout " ++ ref))) (fun _ => fun st5 =>
              transpile_schemas E (output.child (pyTake rev 7))
                (fsGlobRec st5 (ROOT.child "schemas")) st5)) st4
          (M.bind (run E (.ofString ("git checkout " ++ original_ref))) (fun out =>
            M.pure (PyVal.vstr out))) tryResult.2))))) st

/-- The `finally` block of `checkout_transpile_schemas`: check out the
`head_ref` argument, then re-apply the stash when one was detected. -/
def ctsFinally (E : Env) (head_ref : String) (should_apply_stash : Bool) :
    M Unit :=
  M.bind (run E (.ofString ("git checkout " ++ head_ref))) (fun _ =>
    if should_apply_stash then
      M.bind (run E (.ofString "git stash apply")) (fun _ => M.pure ())
    else M.pure ())

/-- The code of `checkout_transpile_schemas` after the `try/finally`:
load both schema sets, then clear and replace `outdir` with the work
directory's contents.  The function body ends without a `return`
statement, so the success value is `None`. -/
def ctsLoadCopy (E : Env) (head_rev_path base_rev_path : PyVal)
    (workdir outdir : FPath) : M PyVal :=
  M.bind (load_schemas E head_rev_path) (fun _head_schemas =>
  M.bind (load_schemas E base_rev_path) (fun _base_schemas =>
  M.bind (rmtreeSt outdir) (fun _ =>
  M.bind (copytreeSt workdir outdir) (fun _ =>
  M.pure PyVal.vnone))))

/-- The tail of `checkout_transpile_schemas` after its `try` block: run
the `finally` cleanup (an exception there wins), re-raise any pending
exception of the `try` block, and otherwise continue with the
load-and-copy epilogue. -/
def ctsTail (E : Env) (head_ref : String) (should_apply_stash : Bool)
    (tryResult : Except PyErr (PyVal × PyVal)) (workdir outdir : FPath) :
    M PyVal :=
  M.bind (ctsFinally E head_ref should_apply_stash) (fun _ =>
    match tryResult with
    | .error e => M.throw e
    | .ok (head_rev_path, base_rev_path) =>
      ctsLoadCopy E head_rev_path base_rev_path workdir outdir)

/-- Embedding of `checkout_transpile_schemas(head_ref, base_ref, outdir)`:
resolve both references, allocate the temporary work directory, stash and
detect whether a stash was created by comparing stash-list line counts,
run both per-revision checkouts inside a `try` whose `finally` checks out
`head_ref` (the argument, not the recorded original reference) and
re-applies a detected stash, then load both schema sets and overwrite
`outdir`. -/
def checkout_transpile_schemas (E : Env) (head_ref base_ref : String)
    (outdir : FPath) : M PyVal :=
  M.bind (resolve_ref E head_ref) (fun resolved_head_ref =>
  M.bind (resolve_ref E base_ref) (fun resolved_base_ref =>
  M.bind (mkdtemp E) (fun workdir =>
  M.bind (git_stash_size E) (fun before_stash_size =>
  M.bind (run E (.ofString "git stash")) (fun _ =>
  M.bind (git_stash_size E) (fun after_size => fun st6 =>
    let should_apply_stash := before_stash_size != after_size
    let tryPair :=
      (M.bind (checkout_transpile_schemasX E resolved_head_ref workdir) (fun head_rev_path =>
       M.bind (checkout_transpile_schemasX E resolved_base_ref workdir) (fun base_rev_path =>
       M.pure (head_rev_path, base_rev_path)))) st6
    ctsTail E head_ref should_apply_stash tryPair.1 workdir outdir tryPair.2))))))

/-! ## Lemmas about the string primitives -/

theorem splitWsAux_nows : ∀ cs acc, (∀ c ∈ cs, isWs c = false) → (cs ≠ [] ∨ acc ≠ []) →
    splitWsAux cs acc = [acc.reverse ++ cs]
  | [], [], _, hne => by simp at hne
  | [], a :: acc, _, _ => by simp [splitWsAux, flushTok]
  | c :: cs, acc, h, _ => by
    have hc : isWs c = false := h c (by simp)
    rw [splitWsAux]
    simp only [hc, Bool.false_eq_true, if_false]
    rw [splitWsAux_nows cs (c :: acc) (fun x hx => h x (by simp [hx])) (Or.inr (by simp))]
    simp

theorem splitWsAux_tokens : ∀ cs acc, (∀ c ∈ acc, isWs c = false) →
    ∀ t ∈ splitWsAux cs acc, t ≠ [] ∧ ∀ c ∈ t, isWs c = false
  | [], acc, hacc, t, ht => by
    match acc, ht with
    | a :: acc, ht =>
      simp [splitWsAux, flushTok] at ht
      subst ht
      constructor
      · simp
      · intro c hc
        exact hacc c (List.mem_cons.mpr (Or.symm (by simpa using hc)))
  | c :: cs, acc, hacc, t, ht => by
    rw [splitWsAux] at ht
    by_cases hc : isWs c = true
    · rw [if_pos hc] at ht
      match acc, ht with
      | [], ht => exact splitWsAux_tokens cs [] (by simp) t ht
      | a :: acc, ht =>
        simp only [flushTok] at ht
        rcases List.mem_cons.mp ht with h1 | h2
        · subst h1
          refine ⟨by simp, ?_⟩
          intro x hx
          exact hacc x (List.mem_cons.mpr (Or.symm (by simpa using hx)))
        · exact splitWsAux_tokens cs [] (by simp) t h2
    · rw [if_neg hc] at ht
      refine splitWsAux_tokens cs (c :: acc) ?_ t ht
      intro x hx
      rcases List.mem_cons.mp hx with h1 | h2
      · subst h1
        simpa using hc
      · exact hacc x h2

theorem noWs_chars {s : String} (h : noWs s = true) : ∀ c ∈ s.data, isWs c = false := by
  intro c hc
  have := List.all_eq_true.mp h c hc
  simpa using this

theorem pySplitWs_single (s : String) (h1 : noWs s = true) (h2 : s.data ≠ []) :
    pySplitWs s = [s] := by
  unfold pySplitWs
  rw [splitWsAux_nows s.data [] (noWs_chars h1) (Or.inl h2)]
  simp

theorem pySplitWs_mem_props {s x : String} (h : x ∈ pySplitWs s) :
    noWs x = true ∧ x.data ≠ [] := by
  unfold pySplitWs at h
  obtain ⟨t, ht, rfl⟩ := List.mem_map.mp h
  have htok := splitWsAux_tokens s.data [] (by simp) t ht
  refine ⟨?_, by simpa using htok.1⟩
  unfold noWs
  exact List.all_eq_true.mpr (fun c hc => by simp [htok.2 c hc])

theorem dropWs_nows {l : List Char} (h : ∀ c ∈ l, isWs c = false) : dropWs l = l := by
  cases l with
  | nil => rfl
  | cons c cs =>
    rw [dropWs]
    simp [h c (by simp)]

theorem pyStrip_nows {s : String} (h : noWs s = true) : pyStrip s = s := by
  unfold pyStrip
  rw [dropWs_nows (noWs_chars h)]
  rw [dropWs_nows (fun c hc => noWs_chars h c (List.mem_reverse.mp hc))]
  simp

theorem pySplitWs_abbrev (s : String) :
    pySplitWs ("git rev-parse --abbrev-ref " ++ s) =
      "git" :: "rev-parse" :: "--abbrev-ref" :: pySplitWs s := rfl

theorem pySplitWs_checkout (s : String) :
    pySplitWs ("git checkout " ++ s) = "git" :: "checkout" :: pySplitWs s := rfl

theorem pySplitWs_revparse (s : String) :
    pySplitWs ("git rev-parse " ++ s) = "git" :: "rev-parse" :: pySplitWs s := rfl

/-! ## Lemmas about the computation combinators -/

theorem M.bind_ok {α β : Type} {m : M α} {a : α} {st st1 : St} (f : α → M β)
    (h : m st = (.ok a, st1)) : M.bind m f st = f a st1 := by
  unfold M.bind
  rw [h]

theorem M.bind_err {α β : Type} {m : M α} {e : PyErr} {st st1 : St} (f : α → M β)
    (h : m st = (.error e, st1)) : M.bind m f st = (.error e, st1) := by
  unfold M.bind
  rw [h]

theorem M.bind_head {α β : Type} (m : M α) (f : α → M β)
    (hm : ∀ st, ((m st).2).head = st.head)
    (hf : ∀ a st, (((f a) st).2).head = st.head) :
    ∀ st, (((M.bind m f) st).2).head = st.head := by
  intro st
  unfold M.bind
  rcases hres : m st with ⟨r, st1⟩
  have hh : st1.head = st.head := by
    have h := hm st
    rw [hres] at h
    exact h
  cases r with
  | error e => exact hh
  | ok a => exact (hf a st1).trans hh

/-! ## Lemmas about `run` on the commands the script issues -/

theorem run_checkout_branch (E : Env) (r : String) (hws : noWs r = true)
    (hne : r.data ≠ []) (hbr : r ∈ E.branches) (hH : r ≠ "HEAD") (st : St) :
    run E (.ofString ("git checkout " ++ r)) st = (.ok "", { st with head := r }) := by
  simp only [run, runArgs]
  rw [pySplitWs_checkout, pySplitWs_single r hws hne]
  have hct : checkoutTarget E st r = some r := by
    unfold checkoutTarget
    rw [if_neg hH, if_pos hbr]
  simp only [subprocessRun]
  rw [hct]
  rfl

theorem run_stash_apply (E : Env) (st : St) :
    run E (.ofString "git stash apply") st =
      if 0 < st.stashes then (.ok "On branch", { st with dirty := true })
      else (.error (.calledProcessError ["git", "stash", "apply"]), st) := by
  by_cases h : 0 < st.stashes
  · rw [if_pos h]
    simp only [run, runArgs]
    rw [show pySplitWs "git stash apply" = ["git", "stash", "apply"] from rfl]
    simp only [subprocessRun]
    rw [if_pos h]
    rfl
  · rw [if_neg h]
    simp only [run, runArgs]
    rw [show pySplitWs "git stash apply" = ["git", "stash", "apply"] from rfl]
    simp only [subprocessRun]
    rw [if_neg h]
    rfl

theorem run_stash_ex (E : Env) (st : St) :
    ∃ out st', run E (.ofString "git stash") st = (.ok out, st') := by
  rcases hd : st.dirty with _ | _
  · refine ⟨"No local changes to save", st, ?_⟩
    simp only [run, runArgs]
    rw [show pySplitWs "git stash" = ["git", "stash"] from rfl]
    simp only [subprocessRun, hd]
    rfl
  · refine ⟨"Saved working directory and index state",
      { st with dirty := false, stashes := st.stashes + 1 }, ?_⟩
    simp only [run, runArgs]
    rw [show pySplitWs "git stash" = ["git", "stash"] from rfl]
    simp only [subprocessRun, hd]
    rfl

theorem git_stash_size_eq (E : Env) (st : St) :
    git_stash_size E st =
      (.ok (pySplitNlCount (pyStrip (stashListOut st.stashes))), st) := rfl

/-! ## State-preservation lemmas -/

theorem loadLoop_st (E : Env) : ∀ ps acc st, (loadLoop E ps acc st).2 = st
  | [], _, _ => rfl
  | p :: rest, acc, st => by
    unfold loadLoop
    rcases hr : fsRead st p with _ | c
    · rfl
    · rcases hj : E.jsonParse c with _ | v
      · simp only [hj]
      · simp only [hj]
        exact loadLoop_st E rest (upsertKey acc (pyDropRight (p.parts.getLastD "") 3) v) st

theorem load_schemas_st (E : Env) (v : PyVal) (st : St) :
    (load_schemas E v st).2 = st := by
  unfold load_schemas
  split
  · rfl
  · split
    · apply loadLoop_st
    · rfl

theorem rmtree_head (p : FPath) (st : St) : ((rmtreeSt p st).2).head = st.head := by
  unfold rmtreeSt
  split
  · rfl
  · rfl

theorem copytree_head (src dst : FPath) (st : St) :
    ((copytreeSt src dst st).2).head = st.head := by
  unfold copytreeSt
  split
  · rfl
  · rfl

theorem ctsLoadCopy_head (E : Env) (hp bp : PyVal) (wd od : FPath) (st : St) :
    ((ctsLoadCopy E hp bp wd od) st).2.head = st.head := by
  unfold ctsLoadCopy
  refine M.bind_head _ _ (fun st0 => by rw [load_schemas_st]) (fun a st0 => ?_) st
  refine M.bind_head _ _ (fun st1 => by rw [load_schemas_st]) (fun a2 st1 => ?_) st0
  refine M.bind_head _ _ (fun st2 => rmtree_head od st2) (fun a3 st2 => ?_) st1
  refine M.bind_head _ _ (fun st3 => copytree_head wd od st3) (fun a4 st3 => rfl) st2

theorem ctsFinally_head (E : Env) (h : String) (hws : noWs h = true)
    (hne : h.data ≠ []) (hbr : h ∈ E.branches) (hH : h ≠ "HEAD") (sa : Bool) (st : St) :
    ∃ r st', ctsFinally E h sa st = (r, st') ∧ st'.head = h := by
  unfold ctsFinally
  rw [M.bind_ok _ (run_checkout_branch E h hws hne hbr hH st)]
  cases sa with
  | false =>
    simp only [Bool.false_eq_true, if_false]
    exact ⟨.ok (), { st with head := h }, rfl, rfl⟩
  | true =>
    simp only [if_true]
    by_cases hs : 0 < ({ st with head := h } : St).stashes
    · rw [M.bind_ok _ (by rw [run_stash_apply, if_pos hs])]
      exact ⟨.ok (), _, rfl, rfl⟩
    · rw [M.bind_err _ (by rw [run_stash_apply, if_neg hs])]
      exact ⟨.error (.calledProcessError ["git", "stash", "apply"]), _, rfl, rfl⟩

theorem ctsTail_head (E : Env) (h : String) (hws : noWs h = true) (hne : h.data ≠ [])
    (hbr : h ∈ E.branches) (hH : h ≠ "HEAD") (sa : Bool)
    (tryRes : Except PyErr (PyVal × PyVal)) (wd od : FPath) (st : St) :
    ((ctsTail E h sa tryRes wd od) st).2.head = h := by
  unfold ctsTail
  obtain ⟨r, st', hcf, hh⟩ := ctsFinally_head E h hws hne hbr hH sa st
  unfold M.bind
  rw [hcf]
  cases r with
  | error e => exact hh
  | ok u =>
    cases tryRes with
    | error e => exact hh
    | ok pr =>
      rcases pr with ⟨hp, bp⟩
      exact (ctsLoadCopy_head E hp bp wd od st').trans hh


theorem runPost_st (v : PyVal) (st : St) : (runPost v st).2 = st := by
  unfold runPost
  split
  · rfl
  · rfl
  · rfl

theorem run_st {E : Env} {cmd : RunArg} {st : St}
    (h : (subprocessRun E (runArgs cmd) st).2 = st) : (run E cmd st).2 = st := by
  simp only [run]
  rcases hs : subprocessRun E (runArgs cmd) st with ⟨r, st1⟩
  have hst : st1 = st := by
    rw [hs] at h
    exact h
  subst hst
  cases r with
  | error e => rfl
  | ok v => exact runPost_st v st1

theorem subprocessRun_abbrev_long_st (E : Env) (st : St) (x y : String) (t : List String) :
    (subprocessRun E ("git" :: "rev-parse" :: "--abbrev-ref" :: x :: y :: t) st).2 = st := by
  rcases t with _ | ⟨z1, t1⟩
  · rfl
  · rcases t1 with _ | ⟨z2, t2⟩
    · rfl
    · rcases t2 with _ | ⟨z3, t3⟩
      · rfl
      · rfl

theorem run_abbrev_st (E : Env) (ref : String) (st : St) :
    (run E (.ofString ("git rev-parse --abbrev-ref " ++ ref)) st).2 = st := by
  apply run_st
  simp only [runArgs]
  rw [pySplitWs_abbrev]
  rcases hx : pySplitWs ref with _ | ⟨x, _ | ⟨y, t⟩⟩
  · simp only [subprocessRun]
    rcases E.revOf (if ("--abbrev-ref" : String) = "HEAD" then st.head else "--abbrev-ref") with _ | v
    · rfl
    · rfl
  · simp only [subprocessRun]
    rcases gitAbbrev E st x with _ | v
    · rfl
    · rfl
  · exact subprocessRun_abbrev_long_st E st x y t

theorem resolve_ref_st (E : Env) (ref : String) (st : St) :
    (resolve_ref E ref st).2 = st := by
  unfold resolve_ref
  rcases hr : run E (.ofString ("git rev-parse --abbrev-ref " ++ ref)) st with ⟨r, st1⟩
  have hst : st1 = st := by
    have h := run_abbrev_st E ref st
    rw [hr] at h
    exact h
  subst hst
  cases r with
  | error e => rfl
  | ok v => rfl

theorem resolve_ref_ok (E : Env) (st : St) (ref : String) (hws : noWs ref = true)
    (hne : ref.data ≠ [])
    (hres : ref = "HEAD" ∨ ref ∈ E.branches ∨ (E.revOf ref).isSome = true) :
    ∃ r, resolve_ref E ref st = (.ok r, st) := by
  have habbrev : ∃ x, gitAbbrev E st ref = some x := by
    unfold gitAbbrev
    by_cases h1 : ref = "HEAD"
    · rw [if_pos h1]
      exact ⟨st.head, rfl⟩
    · rw [if_neg h1]
      by_cases h2 : ref ∈ E.branches
      · rw [if_pos h2]
        exact ⟨ref, rfl⟩
      · rw [if_neg h2]
        have h3 : (E.revOf ref).isSome = true := by
          rcases hres with h | h | h
          · exact absurd h h1
          · exact absurd h h2
          · exact h
        rw [if_pos h3]
        exact ⟨ref, rfl⟩
  obtain ⟨x, hx⟩ := habbrev
  have hrun : run E (.ofString ("git rev-parse --abbrev-ref " ++ ref)) st =
      (.ok (pyStrip x), st) := by
    simp only [run, runArgs]
    rw [pySplitWs_abbrev, pySplitWs_single ref hws hne]
    simp only [subprocessRun]
    rw [hx]
    rfl
  unfold resolve_ref
  rw [hrun]
  exact ⟨pyStrip x, rfl⟩


theorem run_abbrev_ok (E : Env) (st : St) (y : String) (hws : noWs y = true)
    (hne : y.data ≠ []) {x : String} (hx : gitAbbrev E st y = some x) :
    run E (.ofString ("git rev-parse --abbrev-ref " ++ y)) st = (.ok (pyStrip x), st) := by
  simp only [run, runArgs]
  rw [pySplitWs_abbrev, pySplitWs_single y hws hne]
  simp only [subprocessRun]
  rw [hx]
  rfl

theorem run_abbrev_err (E : Env) (st : St) (y : String) (hws : noWs y = true)
    (hne : y.data ≠ []) (hx : gitAbbrev E st y = none) :
    run E (.ofString ("git rev-parse --abbrev-ref " ++ y)) st =
      (.error (.calledProcessError ["git", "rev-parse", "--abbrev-ref", y]), st) := by
  simp only [run, runArgs]
  rw [pySplitWs_abbrev, pySplitWs_single y hws hne]
  simp only [subprocessRun]
  rw [hx]
  rfl

theorem getLastD_concat {l : List String} {a d : String} : (l ++ [a]).getLastD d = a :=
  List.getLastD_concat d a l

theorem transpile_st (E : Env) (q : FPath) (st : St) : (transpile E q st).2 = st := by
  unfold transpile
  rcases hrun : run E (.ofList ["jsonschema-transpiler", pathStr q,
      "--normalize-case", "--resolve", "cast", "--type", "bigquery"]) st with ⟨r, st1⟩
  have hst : st1 = st := by
    have h : (run E (.ofList ["jsonschema-transpiler", pathStr q,
        "--normalize-case", "--resolve", "cast", "--type", "bigquery"]) st).2 = st := by
      apply run_st
      simp only [runArgs, subprocessRun]
      rcases E.toolOut (pathStr q) with _ | o
      · rfl
      · rfl
    rw [hrun] at h
    exact h
  subst hst
  cases r with
  | error e => rfl
  | ok res => rfl

theorem transpile_not_ok (E : Env) (q : FPath) (st : St) :
    ∃ e, (transpile E q st).1 = .error e := by
  unfold transpile
  rcases hrun : run E (.ofList ["jsonschema-transpiler", pathStr q,
      "--normalize-case", "--resolve", "cast", "--type", "bigquery"]) st with ⟨r, st1⟩
  cases r with
  | error e => exact ⟨e, rfl⟩
  | ok res => exact ⟨.attributeError "str" "stdout", rfl⟩

theorem upsertFile_mem {l : List (FPath × String)} {q : FPath} {c0 : String}
    {p : FPath} {c : String} (h : (p, c) ∈ upsertFile l q c0) :
    (p = q ∧ c = c0) ∨ (p, c) ∈ l := by
  induction l with
  | nil =>
    simp [upsertFile] at h
    exact Or.inl ⟨h.1, h.2⟩
  | cons f t ih =>
    unfold upsertFile at h
    by_cases hf : f.1 = q
    · rw [if_pos hf] at h
      rcases List.mem_cons.mp h with h1 | h2
      · exact Or.inl ⟨congrArg Prod.fst h1, congrArg Prod.snd h1⟩
      · exact Or.inr (List.mem_cons.mpr (Or.inr h2))
    · rw [if_neg hf] at h
      rcases List.mem_cons.mp h with h1 | h2
      · exact Or.inr (List.mem_cons.mpr (Or.inl h1))
      · rcases ih h2 with h3 | h4
        · exact Or.inl h3
        · exact Or.inr (List.mem_cons.mpr (Or.inr h4))

theorem last3_append (pre : List String) (a b c : String) :
    last3 ⟨pre ++ [a, b, c]⟩ = some (a, b, c) := by
  unfold last3
  rw [show (pre ++ [a, b, c]).reverse = c :: b :: a :: pre.reverse by simp]

theorem transpileLoop_files (E : Env) (out : FPath) :
    ∀ (ps : List FPath) (st : St) (p : FPath) (c : String),
      (p, c) ∈ ((transpileLoop E out ps) st).2.files →
      (p, c) ∈ st.files ∨
        ∃ q, q ∈ ps ∧ ∃ ns dt fn seg v, last3 q = some (ns, dt, fn) ∧ ns ≠ "schemas" ∧
          thirdFromEnd (pySplitDot fn) = some seg ∧ pyInt seg = some v ∧
          p = out.child (bqName ns dt v)
  | [], st, p, c, h => Or.inl h
  | q :: rest, st, p, c, h => by
    unfold transpileLoop at h
    rcases h3 : last3 q with _ | ⟨ns, dt, fn⟩
    · rw [h3] at h
      exact Or.inl h
    · rw [h3] at h
      rcases hseg : thirdFromEnd (pySplitDot fn) with _ | seg
      · simp only [hseg] at h
        exact Or.inl h
      · simp only [hseg] at h
        rcases hint : pyInt seg with _ | version
        · simp only [hint] at h
          exact Or.inl h
        · simp only [hint] at h
          by_cases hns : ns = "schemas"
          · rw [if_pos hns] at h
            rcases transpileLoop_files E out rest st p c h with h1 | ⟨q', hq', rest'⟩
            · exact Or.inl h1
            · exact Or.inr ⟨q', List.mem_cons.mpr (Or.inr hq'), rest'⟩
          · rw [if_neg hns] at h
            rcases htr : transpile E q (fsWrite st (out.child (bqName ns dt version)) "")
              with ⟨r, st2⟩
            rw [htr] at h
            have hst2 : st2 = fsWrite st (out.child (bqName ns dt version)) "" := by
              have hh := transpile_st E q (fsWrite st (out.child (bqName ns dt version)) "")
              rw [htr] at hh
              exact hh
            cases r with
            | error e =>
              subst hst2
              have hmem : (p, c) ∈ upsertFile st.files (out.child (bqName ns dt version)) "" := h
              rcases upsertFile_mem hmem with ⟨hp, hc⟩ | hold
              · exact Or.inr ⟨q, List.mem_cons.mpr (Or.inl rfl),
                  ns, dt, fn, seg, version, h3, hns, hseg, hint, hp⟩
              · exact Or.inl hold
            | ok j =>
              obtain ⟨e, he⟩ := transpile_not_ok E q
                (fsWrite st (out.child (bqName ns dt version)) "")
              rw [htr] at he
              simp at he

/-! ## Concrete worlds used by the claim theorems and witnesses

A small git repository with three branches, one schema source file under
the repository root, and an external transpiler that succeeds (with some
structured output) on the paths exercised. -/

def EnvA : Env where
  branches := ["dev", "feature", "master"]
  revOf := fun r =>
    if r = "dev" then some "d000000000000000000000000000000000000000"
    else if r = "feature" then some "f000000000000000000000000000000000000000"
    else if r = "master" then some "a000000000000000000000000000000000000000"
    else none
  toolOut := fun p =>
    if p = "ROOT/schemas/telemetry/main/main.4.schema.json" then some "tool-output"
    else if p = "ns/doc/1.2.3.schema.json" then some "tool-output"
    else if p = "ns/doc/1.2.4.schema.json" then some "tool-output"
    else none
  jsonParse := fun s => if s = "null" then some .jnull else none
  jsonDumpS := fun _ => "tool-output"
  tmpdir := ⟨["tmp", "work"]⟩

/-- The repository checked out on branch `dev`, clean tree, empty stash
list, with one schema source file. -/
def StA : St where
  head := "dev"
  dirty := false
  stashes := 0
  dirs := [⟨["out"]⟩, ⟨["ROOT"]⟩, ⟨["ROOT", "schemas"]⟩]
  files := [(⟨["ROOT", "schemas", "telemetry", "main", "main.4.schema.json"]⟩, "src")]

def outA : FPath := ⟨["out"]⟩

def schemaFileA : FPath := ⟨["ROOT", "schemas", "telemetry", "main", "main.4.schema.json"]⟩

/-! ## Claim theorems -/

/-- C1, counterexample: a diff run started on branch `dev` with
`head_ref = "feature"` terminates with its cleanup executed (the
subsequent load-phase failure is reported to the caller), yet the final
current reference is `feature`, not the originally recorded `dev` —
the claimed restoration invariant is false, because the cleanup checks
out the `head_ref` argument rather than the recorded original
reference. -/
theorem c1_restoration_counterexample :
    StA.head = "dev" ∧
    (checkout_transpile_schemas EnvA "feature" "master" outA StA).2.head = "feature" ∧
    (checkout_transpile_schemas EnvA "feature" "master" outA StA).2.head ≠ StA.head ∧
    (checkout_transpile_schemas EnvA "feature" "master" outA StA).1 =
      .error (.attributeError "str" "glob") := by
  refine ⟨rfl, rfl, ?_, rfl⟩
  exact (by decide : ("feature" : String) ≠ "dev")

/-- C1, amended: for every diff run that reaches its cleanup phase
(both references resolve) with `head_ref` an existing branch, the
repository's current reference after the run equals `head_ref` — the
reference passed as the head argument — whether or not the intermediate
steps raised; it equals the originally recorded reference only when the
run already started on `head_ref`.  The cleanup also re-applies the
stash only when the stash-size comparison detected one. -/
theorem c1_cleanup_checks_out_head_ref (E : Env) (st : St) (h b : String) (outdir : FPath)
    (hws : noWs h = true) (hne : h.data ≠ []) (hbr : h ∈ E.branches) (hH : h ≠ "HEAD")
    (hwsB : noWs b = true) (hneB : b.data ≠ [])
    (hresB : b = "HEAD" ∨ b ∈ E.branches ∨ (E.revOf b).isSome = true) :
    ((checkout_transpile_schemas E h b outdir) st).2.head = h := by
  unfold checkout_transpile_schemas
  obtain ⟨rh, ehr⟩ := resolve_ref_ok E st h hws hne (Or.inr (Or.inl hbr))
  rw [M.bind_ok _ ehr]
  obtain ⟨rb, ebr⟩ := resolve_ref_ok E st b hwsB hneB hresB
  rw [M.bind_ok _ ebr]
  rw [M.bind_ok _ (show mkdtemp E st =
    (.ok E.tmpdir, { st with dirs := E.tmpdir :: st.dirs }) from rfl)]
  rw [M.bind_ok _ (git_stash_size_eq E _)]
  obtain ⟨out, st5, hstash⟩ := run_stash_ex E { st with dirs := E.tmpdir :: st.dirs }
  rw [M.bind_ok _ hstash]
  rw [M.bind_ok _ (git_stash_size_eq E st5)]
  exact ctsTail_head E h hws hne hbr hH _ _ _ _ _

/-- C1, witness: the amended statement applied to a concrete run that
starts on `feature` and diffs `master` against `HEAD`: the final
reference is `master`. -/
theorem c1_cleanup_checks_out_head_ref_witness :
    ((checkout_transpile_schemas EnvA "master" "HEAD" outA
      { StA with head := "feature" }).2).head = "master" :=
  c1_cleanup_checks_out_head_ref EnvA { StA with head := "feature" } "master" "HEAD" outA
    (by decide) (by decide) (by decide) (by decide) (by decide) (by decide) (Or.inl rfl)

/-- C2: the claim that every exception raised while checking out or
transpiling propagates to the caller is violated by the code: the
`return` inside the `finally` block of `_checkout_transpile_schemas`
swallows the in-flight exception.  Concretely, with one schema file
present, `transpile` raises `AttributeError` inside the `try` block
(first conjunct), yet the helper returns normally with the checkout
output string, the original reference restored and only an empty `.bq`
placeholder file left behind (second conjunct). -/
theorem c2_exception_swallowed_by_finally_return :
    (transpile EnvA schemaFileA StA).1 = .error (.attributeError "str" "stdout") ∧
    checkout_transpile_schemasX EnvA "feature" EnvA.tmpdir
        { StA with dirs := EnvA.tmpdir :: StA.dirs } =
      (.ok (.vstr ""), { StA with
        dirs := ⟨["tmp", "work", "f000000"]⟩ :: EnvA.tmpdir :: StA.dirs,
        files := StA.files ++ [(⟨["tmp", "work", "f000000", "telemetry.main.4.bq"]⟩, "")] }) :=
  ⟨rfl, rfl⟩

/-- C3, counterexample: a diff run invoked on a dirty working tree does
not fail with the dirty-tree assertion and does not leave the state
untouched: the changes are stashed up front (one stash entry is
created), the checkouts do occur (the final reference is the head
argument), and the run fails much later, in the load phase, with an
unrelated `AttributeError`. -/
theorem c3_dirty_tree_counterexample :
    ({ StA with dirty := true } : St).dirty = true ∧
    ({ StA with dirty := true } : St).stashes = 0 ∧
    (checkout_transpile_schemas EnvA "feature" "master" outA
      { StA with dirty := true }).1 = .error (.attributeError "str" "glob") ∧
    (checkout_transpile_schemas EnvA "feature" "master" outA
      { StA with dirty := true }).1 ≠
      .error (.assertionError "current git state must be clean, please stash changes") ∧
    (checkout_transpile_schemas EnvA "feature" "master" outA
      { StA with dirty := true }).2.stashes = 1 ∧
    (checkout_transpile_schemas EnvA "feature" "master" outA
      { StA with dirty := true }).2.head = "feature" := by
  have h3 : (checkout_transpile_schemas EnvA "feature" "master" outA
      { StA with dirty := true }).1 = .error (.attributeError "str" "glob") := rfl
  refine ⟨rfl, rfl, h3, ?_, rfl, rfl⟩
  rw [h3]
  intro h
  exact absurd (Except.error.inj h) (by decide)

/-- C3, amended: a diff run on a dirty tree does not raise
`DirtyTreeError`: the uncommitted changes are stashed before any
checkout, the per-revision clean-tree assertion then passes, and the run
proceeds (ultimately failing in the load phase for an unrelated reason).
The stash is re-applied during cleanup only when the stash list was
nonempty before the run: the line-count comparison cannot distinguish
zero entries from one, so a stash created from an empty stash list is
kept without re-application (first conjunct: final tree left clean, the
stash entry still present), while with one pre-existing entry the new
stash is detected and re-applied (second conjunct: dirty again). -/
theorem c3_dirty_tree_stashed_and_run_proceeds :
    ((checkout_transpile_schemas EnvA "feature" "master" outA
        { StA with dirty := true }).2.stashes = 1 ∧
      (checkout_transpile_schemas EnvA "feature" "master" outA
        { StA with dirty := true }).2.dirty = false ∧
      (checkout_transpile_schemas EnvA "feature" "master" outA
        { StA with dirty := true }).1 = .error (.attributeError "str" "glob")) ∧
    ((checkout_transpile_schemas EnvA "feature" "master" outA
        { StA with dirty := true, stashes := 1 }).2.stashes = 2 ∧
      (checkout_transpile_schemas EnvA "feature" "master" outA
        { StA with dirty := true, stashes := 1 }).2.dirty = true ∧
      (checkout_transpile_schemas EnvA "feature" "master" outA
        { StA with dirty := true, stashes := 1 }).1 =
        .error (.attributeError "str" "glob")) :=
  ⟨⟨rfl, rfl, rfl⟩, ⟨rfl, rfl, rfl⟩⟩

/-- C4: `transpile` does invoke the transpiler with the fixed options
(the environment's tool oracle is consulted and succeeds, first
conjunct), but it never returns the parsed schema: `run` already returns
the decoded, stripped stdout string, and the subsequent `res.stdout`
attribute access on that `str` raises `AttributeError` (second
conjunct). -/
theorem c4_transpile_raises_attribute_error :
    EnvA.toolOut (pathStr schemaFileA) = some "tool-output" ∧
    transpile EnvA schemaFileA StA = (.error (.attributeError "str" "stdout"), StA) :=
  ⟨rfl, rfl⟩

/-- C5: a diff run never returns the pair of schema sets.  The
per-revision helper returns the string produced by its `finally` block's
checkout (first conjunct), so `load_schemas` receives a `str` instead of
a work-directory path and raises `AttributeError` (`str` has no `glob`);
the run therefore fails before the function's end — whose fall-through
return value would in any case be `None`, not a pair (second
conjunct). -/
theorem c5_diff_never_returns_schema_set_pair :
    (checkout_transpile_schemasX EnvA "master" EnvA.tmpdir
        { StA with head := "feature", dirs := EnvA.tmpdir :: StA.dirs }).1 =
      .ok (.vstr "") ∧
    (checkout_transpile_schemas EnvA "master" "dev" outA
        { StA with head := "feature" }).1 = .error (.attributeError "str" "glob") :=
  ⟨rfl, rfl⟩

/-- C6: for the two source files `ns/doc/1.2.3.schema.json` and
`ns/doc/1.2.4.schema.json` the computed output names are `ns.doc.3.bq`
and `ns.doc.4.bq` and they do not collide (first three conjuncts), but
`transpile_schemas` never produces those files: the call raises
`AttributeError` inside `transpile` while processing the first path,
leaving only an empty `ns.doc.3.bq` placeholder and no `ns.doc.4.bq`
(last two conjuncts). -/
theorem c6_output_naming_and_transpile_failure :
    bqName "ns" "doc" 3 = "ns.doc.3.bq" ∧
    bqName "ns" "doc" 4 = "ns.doc.4.bq" ∧
    ("ns.doc.3.bq" : String) ≠ "ns.doc.4.bq" ∧
    (transpile_schemas EnvA outA [⟨["ns", "doc", "1.2.3.schema.json"]⟩,
        ⟨["ns", "doc", "1.2.4.schema.json"]⟩] StA).1 =
      .error (.attributeError "str" "stdout") ∧
    (transpile_schemas EnvA outA [⟨["ns", "doc", "1.2.3.schema.json"]⟩,
        ⟨["ns", "doc", "1.2.4.schema.json"]⟩] StA).2.files =
      StA.files ++ [(outA.child "ns.doc.3.bq", "")] :=
  ⟨rfl, rfl, by decide, rfl, rfl⟩

/-- C7: `load_schemas` applied to a directory with zero `.bq` files
fails with the `len(paths) > 0` assertion (the spec's
`EmptySchemaSetError`), and applied to a directory whose only `.bq` file
is named `a.b.1.bq` returns a one-entry mapping keyed by the filename
stem `"a.b.1"`, holding the parsed file content. -/
theorem c7_load_schemas_empty_and_singleton :
    (∀ (E : Env) (st : St) (dir : FPath), fsGlob st dir = [] →
       load_schemas E (.vpath dir) st = (.error (.assertionError "len(paths) > 0"), st)) ∧
    (∀ (E : Env) (st : St) (dir : FPath) (c : String) (v : Jval),
       fsGlob st dir = [dir.child "a.b.1.bq"] →
       fsRead st (dir.child "a.b.1.bq") = some c → E.jsonParse c = some v →
       load_schemas E (.vpath dir) st = (.ok [("a.b.1", v)], st)) := by
  constructor
  · intro E st dir hglob
    simp only [load_schemas, methGlobBq]
    rw [hglob]
    rfl
  · intro E st dir c v hglob hread hparse
    simp only [load_schemas, methGlobBq]
    rw [hglob]
    rw [if_pos (by simp)]
    unfold loadLoop
    simp only [hread, hparse]
    have hlast : ((dir.child "a.b.1.bq").parts.getLastD "") = "a.b.1.bq" := by
      unfold FPath.child
      exact getLastD_concat
    rw [hlast]
    rfl

/-- C7, witness: both parts at concrete worlds — an empty directory
fails the assertion, and a directory holding exactly `d/a.b.1.bq` with
content `"null"` yields the singleton mapping. -/
theorem c7_load_schemas_empty_and_singleton_witness :
    load_schemas EnvA (.vpath ⟨["empty"]⟩) StA =
      (.error (.assertionError "len(paths) > 0"), StA) ∧
    load_schemas EnvA (.vpath ⟨["d"]⟩)
        { head := "dev", dirty := false, stashes := 0, dirs := [⟨["d"]⟩],
          files := [((⟨["d"]⟩ : FPath).child "a.b.1.bq", "null")] } =
      (.ok [("a.b.1", .jnull)],
        { head := "dev", dirty := false, stashes := 0, dirs := [⟨["d"]⟩],
          files := [((⟨["d"]⟩ : FPath).child "a.b.1.bq", "null")] }) :=
  ⟨c7_load_schemas_empty_and_singleton.1 EnvA StA ⟨["empty"]⟩ rfl,
    c7_load_schemas_empty_and_singleton.2 EnvA
      { head := "dev", dirty := false, stashes := 0, dirs := [⟨["d"]⟩],
        files := [((⟨["d"]⟩ : FPath).child "a.b.1.bq", "null")] }
      ⟨["d"]⟩ "null" .jnull rfl rfl rfl⟩

/-- C8: `transpile_schemas` never produces an output file for a source
path whose namespace component is the reserved sentinel `"schemas"`:
every file present after a run and not present before it derives from
some input path whose namespace differs from `"schemas"` (with its name
built by the `bqName` f-string from that path's components). -/
theorem c8_sentinel_namespace_never_written (E : Env) (out : FPath) (ps : List FPath)
    (st : St) (p : FPath) (c : String)
    (h : (p, c) ∈ ((transpile_schemas E out ps) st).2.files) :
    (p, c) ∈ st.files ∨
      ∃ q, q ∈ ps ∧ ∃ ns dt fn seg v, last3 q = some (ns, dt, fn) ∧ ns ≠ "schemas" ∧
        thirdFromEnd (pySplitDot fn) = some seg ∧ pyInt seg = some v ∧
        p = out.child (bqName ns dt v) := by
  unfold transpile_schemas at h
  by_cases hd : isDir st out = true
  · rw [if_pos hd] at h
    exact transpileLoop_files E out ps st p c h
  · rw [if_neg hd] at h
    exact Or.inl h

/-- C8, witness: in a run over a sentinel path and a normal path, the
one file that was created is accounted for by the normal path. -/
theorem c8_sentinel_namespace_never_written_witness :
    (outA.child "ns.doc.3.bq", "") ∈ StA.files ∨
      ∃ q, q ∈ [(⟨["schemas", "foo", "1.2.3.schema.json"]⟩ : FPath),
          ⟨["ns", "doc", "1.2.3.schema.json"]⟩] ∧
        ∃ ns dt fn seg v, last3 q = some (ns, dt, fn) ∧ ns ≠ "schemas" ∧
          thirdFromEnd (pySplitDot fn) = some seg ∧ pyInt seg = some v ∧
          outA.child "ns.doc.3.bq" = outA.child (bqName ns dt v) :=
  c8_sentinel_namespace_never_written EnvA outA
    [⟨["schemas", "foo", "1.2.3.schema.json"]⟩, ⟨["ns", "doc", "1.2.3.schema.json"]⟩]
    StA (outA.child "ns.doc.3.bq") "" (by decide)

/-- C9: `resolve_ref` never mutates repository state (first conjunct),
and on a well-formed repository (the current head is `HEAD` or an
existing branch, branch names are whitespace-free) resolution is
idempotent: whatever reference `resolve_ref` returns resolves to itself
when fed back in, so an already-canonical reference returns itself. -/
theorem c9_resolve_ref_idempotent_and_read_only (E : Env) (st : St) (ref : String)
    (hws : noWs ref = true) (hne : ref.data ≠ [])
    (hwf1 : st.head = "HEAD" ∨ st.head ∈ E.branches)
    (hwf2 : noWs st.head = true) (hwf3 : st.head.data ≠ []) :
    (resolve_ref E ref st).2 = st ∧
      ∀ r, (resolve_ref E ref st).1 = .ok r → resolve_ref E r st = (.ok r, st) := by
  refine ⟨resolve_ref_st E ref st, ?_⟩
  intro r hr
  rcases habr : gitAbbrev E st ref with _ | x
  · have hbad : resolve_ref E ref st =
        (.error (.calledProcessError ["git", "rev-parse", "--abbrev-ref", ref]), st) := by
      unfold resolve_ref
      rw [run_abbrev_err E st ref hws hne habr]
    rw [hbad] at hr
    simp at hr
  · have hres1 : resolve_ref E ref st = (.ok (pyStrip x), st) := by
      unfold resolve_ref
      rw [run_abbrev_ok E st ref hws hne habr]
    rw [hres1] at hr
    simp only [Except.ok.injEq] at hr
    have hxprops : noWs x = true ∧ x.data ≠ [] ∧ gitAbbrev E st x = some x := by
      unfold gitAbbrev at habr
      by_cases h1 : ref = "HEAD"
      · rw [if_pos h1] at habr
        have hx : x = st.head := (Option.some.inj habr).symm
        subst hx
        refine ⟨hwf2, hwf3, ?_⟩
        unfold gitAbbrev
        by_cases hh : st.head = "HEAD"
        · rw [if_pos hh]
        · rw [if_neg hh]
          have hmem : st.head ∈ E.branches := by
            rcases hwf1 with h | h
            · exact absurd h hh
            · exact h
          rw [if_pos hmem]
      · rw [if_neg h1] at habr
        by_cases h2 : ref ∈ E.branches
        · rw [if_pos h2] at habr
          have hx : x = ref := (Option.some.inj habr).symm
          subst hx
          refine ⟨hws, hne, ?_⟩
          unfold gitAbbrev
          rw [if_neg h1, if_pos h2]
        · rw [if_neg h2] at habr
          by_cases h3 : (E.revOf ref).isSome = true
          · rw [if_pos h3] at habr
            have hx : x = ref := (Option.some.inj habr).symm
            subst hx
            refine ⟨hws, hne, ?_⟩
            unfold gitAbbrev
            rw [if_neg h1, if_neg h2, if_pos h3]
          · rw [if_neg h3] at habr
            exact absurd habr (by simp)
    obtain ⟨hxw, hxn, hxa⟩ := hxprops
    have hstrip : pyStrip x = x := pyStrip_nows hxw
    rw [hstrip] at hr
    subst hr
    unfold resolve_ref
    rw [run_abbrev_ok E st x hxw hxn hxa]
    rw [hstrip]

/-- C9, witness: on the concrete repository, resolving `HEAD` yields the
branch `dev`, and feeding that result back returns it unchanged with the
state untouched. -/
theorem c9_resolve_ref_idempotent_and_read_only_witness :
    resolve_ref EnvA "dev" StA = (.ok "dev", StA) :=
  (c9_resolve_ref_idempotent_and_read_only EnvA StA "HEAD" (by decide) (by decide)
    (Or.inr (by decide)) (by decide) (by decide)).2 "dev" rfl

/-- C10: in `transpile_schemas` the integer version is parsed from the
filename before the reserved-namespace check, so a path whose namespace
is the sentinel `"schemas"` but whose filename's third-from-end dot
segment is not an integer raises `ValueError` instead of being
skipped, leaving the state untouched. -/
theorem c10_version_parsed_before_sentinel_check (E : Env) (st : St) (out : FPath)
    (pre : List String) (dt fn seg : String) (hdir : isDir st out = true)
    (hseg : thirdFromEnd (pySplitDot fn) = some seg) (hint : pyInt seg = none) :
    transpile_schemas E out [⟨pre ++ ["schemas", dt, fn]⟩] st =
      (.error (.valueError ("invalid literal for int: " ++ seg)), st) := by
  unfold transpile_schemas
  rw [if_pos hdir]
  unfold transpileLoop
  rw [last3_append]
  simp only [hseg, hint]

/-- C10, witness: the sentinel path `schemas/foo/metadata.schema.json`
raises the integer parse failure rather than being skipped. -/
theorem c10_version_parsed_before_sentinel_check_witness :
    transpile_schemas EnvA outA [⟨["schemas", "foo", "metadata.schema.json"]⟩] StA =
      (.error (.valueError ("invalid literal for int: " ++ "metadata")), StA) :=
  c10_version_parsed_before_sentinel_check EnvA StA outA [] "foo" "metadata.schema.json"
    "metadata" (by decide) rfl rfl
